import Mathlib

/-!
Verification of the tic-tac-toe frontend (`tic_tac_toe_frontend/src/App.js`).

The development shallowly embeds the board model, the win-line scan
`getWinLine`, and the state-changing operations of the `App` component
(`handleAuth`, logout, `startNewGame`, `joinGame`, `playMove`, `fetchGame`)
as pure Lean functions.  React `useState` hooks become fields of `AppState`;
an async operation becomes a function from the old state and the HTTP
response (`Except` for caught failures) to the new state.  JS truthiness is
modelled where it matters: `null`/`undefined` are `none`, the number `0` and
the empty string are falsy, arrays (including `[]`) are truthy.
-/

namespace TicTacToe

/-- A player mark; the source uses the strings `'X'` and `'O'`. -/
inductive Mark
  | X
  | O
deriving DecidableEq, Repr

/-- A board cell.  `none` models both JS `null` (an empty cell, as produced by
`Array(9).fill(null)`) and `undefined` (an out-of-range access): both are
falsy and neither is `===`-equal to a mark string. -/
abbrev Cell := Option Mark

/-- An index triple, as returned by `getWinLine` (`return [a, b, c]`). -/
abbrev Line := Nat × Nat × Nat

/-- Source: `const emptyBoard = Array(9).fill(null)` (App.js line 150). -/
def emptyBoard : List Cell := List.replicate 9 none

/-- Source: `WIN_LINES` (App.js lines 152-156): three rows, three columns, two
diagonals, in the source's enumeration order. -/
def WIN_LINES : List Line :=
  [(0, 1, 2), (3, 4, 5), (6, 7, 8),
   (0, 3, 6), (1, 4, 7), (2, 5, 8),
   (0, 4, 8), (2, 4, 6)]

/-- JS `board[i]`: the cell when `i` is in range, `undefined` (modelled as
`none`) otherwise. -/
def cellAt (board : List Cell) (i : Nat) : Cell := board[i]?.getD none

/-- The loop guard of `getWinLine` (App.js line 325):
`board[a] && board[a] === board[b] && board[a] === board[c]`. -/
def lineMatches (board : List Cell) (l : Line) : Bool :=
  (cellAt board l.1).isSome
    && decide (cellAt board l.1 = cellAt board l.2.1)
    && decide (cellAt board l.1 = cellAt board l.2.2)

/-- Source: `getWinLine` (App.js lines 322-330): scan `WIN_LINES` in order, return the
first triple whose three cells are equal and non-empty, else `null`.  The
source performs no length check on its input. -/
def getWinLine (board : List Cell) : Option Line :=
  WIN_LINES.find? (lineMatches board)

/-- The outcome of a board, as described by the spec's §4.1 contract. -/
inductive Outcome
  | none
  | win (m : Mark) (l : Line)
  | draw
deriving DecidableEq, Repr

/-- Modelled from the spec: §4.1's `deriveOutcome`.  The repository's src
implements only the win-line scan (`getWinLine`); the draw / in-progress
classification is decided by the backend (`res.winner === 'draw'`) and is
absent from src, so it is modelled here from the spec's words: `win(mark,
line)` for the first matching triple, `draw` if no triple matches and no cell
is empty, `none` otherwise.  The inner `Outcome.none` fallback is unreachable:
`getWinLine` only returns lines whose first cell is non-empty. -/
def deriveOutcome (board : List Cell) : Outcome :=
  match getWinLine board with
  | some l =>
    match cellAt board l.1 with
    | some m => Outcome.win m l
    | none => Outcome.none
  | none =>
    if board.all (fun c => c.isSome) then Outcome.draw else Outcome.none

/-- Declarative reading used by the spec: the three cells of the triple `l`,
read by genuine list indexing, all hold the mark `m`. -/
def lineFilledWith (board : List Cell) (l : Line) (m : Mark) : Prop :=
  board[l.1]? = some (some m) ∧ board[l.2.1]? = some (some m)
    ∧ board[l.2.2]? = some (some m)

instance (board : List Cell) (l : Line) (m : Mark) :
    Decidable (lineFilledWith board l m) := by
  unfold lineFilledWith; infer_instance

/-- The board of the spec's concrete scenario 1:
`[A,A,A,empty,empty,empty,empty,empty,empty]`. -/
def scenario1Board : List Cell :=
  [some Mark.X, some Mark.X, some Mark.X, none, none, none, none, none, none]

/-- The input truncated to its first 9 cells and padded with empty cells up
to length 9. -/
def padTrunc9 (board : List Cell) : List Cell :=
  board.take 9 ++ List.replicate (9 - board.length) none

-- ---------------------------------------------------------------------------
-- Application state and operations
-- ---------------------------------------------------------------------------

/-- The user record `{id, username}` exchanged with `/users/login` and
`/users/signup` and stored under the `ttt-user` key. -/
structure Session where
  id : String
  username : String
deriving DecidableEq, Repr

/-- The `winner` field of a game-state response: `'X'`, `'O'` or `'draw'`. -/
inductive Winner
  | mark (m : Mark)
  | draw
deriving DecidableEq, Repr

/-- A game-state response body (§6): `{id, state, next, winner?, win_line?}`.
`none` in an optional field models an absent (hence falsy) field; for `state`
it also models a non-array value, which the board-update guard rejects. -/
structure GameResponse where
  id : Nat
  state : Option (List Cell)
  next : Option Mark
  winner : Option Winner
  win_line : Option Line
deriving DecidableEq, Repr

/-- The `App` component state (the `useState` hooks of App.js lines 160-175
that the game logic touches), plus `storageUser`, which models the single
persisted `localStorage` key `ttt-user`. -/
structure AppState where
  user : Option Session
  gameId : Option Nat
  game : Option GameResponse
  playing : Bool
  board : List Cell
  winLine : Option Line
  fetching : Bool
  msg : String
  result : Option Winner
  storageUser : Option Session
deriving DecidableEq, Repr

/-- Source: `res.state && Array.isArray(res.state) ? res.state : [...emptyBoard]`
(App.js lines 239, 256, 277, 297).  Arrays, including `[]`, are truthy in JS,
so any present array is taken as is — its length is not checked. -/
def boardFromState (st : Option (List Cell)) : List Cell :=
  match st with
  | some s => s
  | none => emptyBoard

/-- The session established by `handleAuth` (App.js lines 210-219): the
server's answer if the POST succeeded, else the raw-username fallback
`{ id: username, username }`. -/
def authSession (username : String) (apiRes : Except String Session) : Session :=
  match apiRes with
  | Except.ok r => r
  | Except.error _ => { id := username, username := username }

/-- Source: `handleAuth` (App.js lines 203-226), net state change of a completed call:
`setUser(res); localStorage.setItem('ttt-user', JSON.stringify(res))`. -/
def handleAuth (s : AppState) (username : String)
    (apiRes : Except String Session) : AppState :=
  let res := authSession username apiRes
  { s with user := some res, storageUser := some res }

/-- The logout button handler (App.js lines 378-381):
`setUser(null); localStorage.removeItem('ttt-user')` — and nothing else. -/
def logout (s : AppState) : AppState :=
  { s with user := none, storageUser := none }

/-- Source: `startNewGame` (App.js lines 229-247), net state change of a completed
call.  On success the message set before the request is never cleared. -/
def startNewGame (s : AppState) (res : Except String GameResponse) : AppState :=
  match res with
  | Except.ok r =>
    { s with msg := "Creating game...", gameId := some r.id,
             board := boardFromState r.state, playing := true,
             result := none, winLine := none, fetching := false }
  | Except.error e =>
    { s with msg := "Failed to create game: " ++ e, fetching := false }

/-- Source: `joinGame` (App.js lines 250-265), net state change of a completed call. -/
def joinGame (s : AppState) (res : Except String GameResponse) : AppState :=
  match res with
  | Except.ok r =>
    { s with msg := "Joining game...", gameId := some r.id,
             board := boardFromState r.state, game := some r, playing := true,
             result := none, winLine := none, fetching := false }
  | Except.error e =>
    { s with msg := "Could not join: " ++ e, fetching := false }

/-- The message of the TypeError thrown when `getWinLine` dereferences a
missing `res.state`. -/
def typeErrorMsg : String := "TypeError"

/-- JS truthiness of the `gameId` state value: `null` and the number `0` are
falsy. -/
def gameIdTruthy : Option Nat → Bool
  | none => false
  | some n => n != 0

/-- Source: `user?.id || user?.username` (App.js line 275): an empty `id` string is
falsy, so the username is used in its place. -/
def playerOf (u : Session) : String :=
  if u.id = "" then u.username else u.id

/-- The body of `POST /games/{id}/move`. -/
structure MoveRequest where
  player : String
  move_index : Nat
deriving DecidableEq, Repr

/-- The successful-response branch of `playMove` (App.js lines 273-283, plus
the final `setFetching(false)`).  When `res.winner` is set but `win_line` and
`state` are both missing, `getWinLine(res.state)` throws after `setResult`
has already run, so `setWinLine`/`setPlaying(false)` are skipped and the
catch block sets the message instead. -/
def playMoveApply (s : AppState) (r : GameResponse) : AppState :=
  let s1 := { s with msg := "", board := boardFromState r.state, game := some r }
  match r.winner with
  | none => { s1 with fetching := false }
  | some w =>
    match r.win_line with
    | some l =>
      { s1 with result := some w, winLine := some l,
                playing := false, fetching := false }
    | none =>
      match r.state with
      | some st =>
        { s1 with result := some w, winLine := getWinLine st,
                  playing := false, fetching := false }
      | none =>
        { s1 with result := some w, msg := "Move failed: " ++ typeErrorMsg,
                  fetching := false }

/-- Source: `playMove` (App.js lines 268-288): the guard `if (!gameId || !user)
return;` precedes every state write and the HTTP call.  Returns the new state
and the move request issued, if any; `res` is the server's answer to that
request (`Except.error` for a caught failure). -/
def playMove (s : AppState) (cellIdx : Nat)
    (res : Except String GameResponse) : AppState × Option MoveRequest :=
  match s.user with
  | none => (s, none)
  | some u =>
    if !gameIdTruthy s.gameId then (s, none)
    else
      match res with
      | Except.ok r =>
        (playMoveApply s r, some { player := playerOf u, move_index := cellIdx })
      | Except.error e =>
        ({ s with msg := "Move failed: " ++ e, fetching := false },
         some { player := playerOf u, move_index := cellIdx })

/-- The successful-response branch of `fetchGame` (App.js lines 295-300, plus
the final `setFetching(false)`).  `res.win_line || getWinLine(res.state)`
evaluates the fallback only when `win_line` is absent; if `state` is then
also missing, `getWinLine` throws after `setResult`, so `setWinLine` and
`setPlaying` are skipped and the catch block sets the message. -/
def fetchGameApply (s : AppState) (r : GameResponse) : AppState :=
  let s1 := { s with msg := "Loading game...", game := some r,
                     board := boardFromState r.state, result := r.winner }
  match r.win_line with
  | some l =>
    { s1 with winLine := some l, playing := r.winner.isNone, fetching := false }
  | none =>
    match r.state with
    | some st =>
      { s1 with winLine := getWinLine st, playing := r.winner.isNone,
                fetching := false }
    | none =>
      { s1 with msg := "Load failed: " ++ typeErrorMsg, fetching := false }

/-- Source: `fetchGame` (App.js lines 291-305), net state change of a completed call. -/
def fetchGame (s : AppState) (res : Except String GameResponse) : AppState :=
  match res with
  | Except.ok r => fetchGameApply s r
  | Except.error e => { s with msg := "Load failed: " ++ e, fetching := false }

-- ---------------------------------------------------------------------------
-- GameBoard wiring (clickability)
-- ---------------------------------------------------------------------------

/-- The `disabled` attribute of a cell button (App.js line 37):
`disabled={disabled || !!cell}`. -/
def cellDisabled (disabled : Bool) (cell : Cell) : Bool :=
  disabled || cell.isSome

/-- A click on a cell button runs `onPlay && onPlay(idx)` (App.js line 38),
and a disabled HTML button fires no click handler at all: the intent is
emitted iff the button is enabled and `onPlay` was provided. -/
def cellEmitsIntent (disabled : Bool) (onPlayProvided : Bool) (cell : Cell) : Bool :=
  !(cellDisabled disabled cell) && onPlayProvided

/-- The `disabled` prop `App` passes to `GameBoard` (App.js line 409):
`disabled={!playing || fetching || !!result}`. -/
def appBoardDisabled (playing fetching : Bool) (result : Option Winner) : Bool :=
  !playing || fetching || result.isSome

/-- Whether a click on a cell emits a move intent, with `GameBoard` wired as
in `App` (App.js lines 407-412: `onPlay={playing ? playMove : null}`). -/
def clickEmitsMove (playing fetching : Bool) (result : Option Winner)
    (cell : Cell) : Bool :=
  cellEmitsIntent (appBoardDisabled playing fetching result) playing cell

-- ---------------------------------------------------------------------------
-- Concrete fixtures used by counterexamples and witnesses
-- ---------------------------------------------------------------------------

/-- A logged-in state in the middle of game 5, with a well-formed board. -/
def loggedInMidGameState : AppState :=
  { user := some { id := "alice", username := "alice" },
    gameId := some 5, game := none, playing := true,
    board := emptyBoard, winLine := none, fetching := false,
    msg := "", result := none,
    storageUser := some { id := "alice", username := "alice" } }

/-- A logged-in state with no current game. -/
def noGameState : AppState :=
  { user := some { id := "alice", username := "alice" },
    gameId := none, game := none, playing := false,
    board := emptyBoard, winLine := none, fetching := false,
    msg := "", result := none,
    storageUser := some { id := "alice", username := "alice" } }

/-- A server response whose `state` array has length 1, not 9. -/
def shortStateResponse : GameResponse :=
  { id := 1, state := some [some Mark.X], next := some Mark.O,
    winner := none, win_line := none }

/-- A well-formed in-progress server response with a 9-cell board. -/
def fullResponse : GameResponse :=
  { id := 2, state := some emptyBoard, next := some Mark.X,
    winner := none, win_line := none }

-- ---------------------------------------------------------------------------
-- Helper lemmas about the win-line scan
-- ---------------------------------------------------------------------------

theorem lineMatches_true_iff (board : List Cell) (l : Line) :
    lineMatches board l = true ↔
      ∃ m, cellAt board l.1 = some m ∧ cellAt board l.2.1 = some m ∧
        cellAt board l.2.2 = some m := by
  unfold lineMatches
  cases hc : cellAt board l.1 with
  | none => simp [hc]
  | some m =>
    simp only [hc, Option.isSome_some, Bool.true_and, Bool.and_eq_true,
      decide_eq_true_eq]
    constructor
    · rintro ⟨h1, h2⟩
      exact ⟨m, rfl, h1.symm, h2.symm⟩
    · rintro ⟨m', hm', h1, h2⟩
      injection hm' with hm'
      subst hm'
      exact ⟨h1.symm, h2.symm⟩

theorem cellAt_eq_some_iff (board : List Cell) (i : Nat) (h : i < board.length)
    (m : Mark) : cellAt board i = some m ↔ board[i]? = some (some m) := by
  unfold cellAt
  rw [List.getElem?_eq_getElem h]
  simp

theorem winLine_mem_lt (l : Line) (hl : l ∈ WIN_LINES) :
    l.1 < 9 ∧ l.2.1 < 9 ∧ l.2.2 < 9 := by
  simp only [WIN_LINES, List.mem_cons, List.not_mem_nil, or_false] at hl
  rcases hl with rfl | rfl | rfl | rfl | rfl | rfl | rfl | rfl <;>
    exact ⟨by decide, by decide, by decide⟩

theorem lineMatches_true_iff_filled (board : List Cell)
    (hb : board.length = 9) (l : Line) (hl : l ∈ WIN_LINES) :
    lineMatches board l = true ↔ ∃ m, lineFilledWith board l m := by
  obtain ⟨h1, h2, h3⟩ := winLine_mem_lt l hl
  rw [lineMatches_true_iff]
  unfold lineFilledWith
  constructor
  · rintro ⟨m, c1, c2, c3⟩
    exact ⟨m, (cellAt_eq_some_iff board l.1 (by omega) m).mp c1,
      (cellAt_eq_some_iff board l.2.1 (by omega) m).mp c2,
      (cellAt_eq_some_iff board l.2.2 (by omega) m).mp c3⟩
  · rintro ⟨m, c1, c2, c3⟩
    exact ⟨m, (cellAt_eq_some_iff board l.1 (by omega) m).mpr c1,
      (cellAt_eq_some_iff board l.2.1 (by omega) m).mpr c2,
      (cellAt_eq_some_iff board l.2.2 (by omega) m).mpr c3⟩

theorem getWinLine_eq_some_iff (board : List Cell) (l : Line) :
    getWinLine board = some l ↔
      lineMatches board l = true ∧
        ∃ pre post, WIN_LINES = pre ++ l :: post ∧
          ∀ l' ∈ pre, lineMatches board l' = false := by
  unfold getWinLine
  rw [List.find?_eq_some]
  simp only [Bool.not_eq_true']

theorem getWinLine_matches (board : List Cell) (l : Line)
    (h : getWinLine board = some l) : lineMatches board l = true :=
  List.find?_some h

theorem getWinLine_mem (board : List Cell) (l : Line)
    (h : getWinLine board = some l) : l ∈ WIN_LINES :=
  List.mem_of_find?_eq_some h

theorem getWinLine_eq_none_iff (board : List Cell) :
    getWinLine board = none ↔ ∀ l ∈ WIN_LINES, lineMatches board l = false := by
  unfold getWinLine
  rw [List.find?_eq_none]
  simp only [Bool.not_eq_true]

-- ---------------------------------------------------------------------------
-- Claim theorems
-- ---------------------------------------------------------------------------

/-- Claim C4: a cell click emits `moveIntent(index)` iff the game is in
playing state, no request is in flight, no outcome has been finalized, and
the cell is empty; in particular no intent is emitted while a request is in
flight. -/
theorem clickEmitsMove_iff (playing fetching : Bool) (result : Option Winner)
    (cell : Cell) :
    (clickEmitsMove playing fetching result cell = true ↔
      playing = true ∧ fetching = false ∧ result = none ∧ cell = none)
    ∧ clickEmitsMove playing true result cell = false := by
  cases playing <;> cases fetching <;> cases result <;> cases cell <;>
    simp [clickEmitsMove, cellEmitsIntent, cellDisabled, appBoardDisabled]

/-- Claim C6: when the authentication endpoint call fails, `handleAuth` does
not fail: it establishes (and persists) a session whose id and username are
both the raw username supplied. -/
theorem auth_fallback_session (s : AppState) (username e : String) :
    (handleAuth s username (Except.error e)).user
        = some { id := username, username := username }
      ∧ (handleAuth s username (Except.error e)).storageUser
        = some { id := username, username := username } :=
  ⟨rfl, rfl⟩

/-- Claim C7 counterexample: logout does not discard the in-memory game
state.  From a state in the middle of game 5, logout clears the user but the
game id (and the rest of the game state) survives. -/
theorem logout_keeps_game_counterexample :
    (logout loggedInMidGameState).user = none
      ∧ (logout loggedInMidGameState).gameId = some 5
      ∧ (logout loggedInMidGameState).playing = true :=
  ⟨rfl, rfl, rfl⟩

/-- Claim C7 (amended): logout unconditionally returns the session to
unauthenticated and removes the single persisted key, but leaves every other
in-memory field (game id, game, board, win line, playing, fetching, message,
result) unchanged; the persisted key is written on login. -/
theorem logout_amended (s : AppState) :
    (logout s).user = none ∧ (logout s).storageUser = none
      ∧ (logout s).gameId = s.gameId ∧ (logout s).game = s.game
      ∧ (logout s).board = s.board ∧ (logout s).playing = s.playing
      ∧ (logout s).winLine = s.winLine ∧ (logout s).fetching = s.fetching
      ∧ (logout s).msg = s.msg ∧ (logout s).result = s.result
      ∧ ∀ (u : String) (r : Except String Session),
          (handleAuth s u r).storageUser = some (authSession u r) :=
  ⟨rfl, rfl, rfl, rfl, rfl, rfl, rfl, rfl, rfl, rfl, fun _ _ => rfl⟩

/-- Claim C8: the outcome derivation is a pure, deterministic function of the
board — applied to equal boards it yields identical results. -/
theorem deriveOutcome_deterministic (b1 b2 : List Cell) (h : b1 = b2) :
    deriveOutcome b1 = deriveOutcome b2 ∧ getWinLine b1 = getWinLine b2 :=
  ⟨congrArg deriveOutcome h, congrArg getWinLine h⟩

/-- Witness for C8 at the concrete scenario-1 board. -/
theorem deriveOutcome_deterministic_witness :
    deriveOutcome scenario1Board = deriveOutcome scenario1Board
      ∧ getWinLine scenario1Board = getWinLine scenario1Board :=
  deriveOutcome_deterministic scenario1Board scenario1Board rfl

/-- Claim C10: with no game id set or no authenticated user, `playMove`
returns immediately: it issues no HTTP request and leaves the whole state
unchanged. -/
theorem playMove_guard_frame (s : AppState) (cellIdx : Nat)
    (res : Except String GameResponse) (h : s.gameId = none ∨ s.user = none) :
    playMove s cellIdx res = (s, none) := by
  obtain ⟨u, gid, gm, pl, bd, wl, ft, m, rs, su⟩ := s
  rcases h with h | h <;> simp only at h <;> subst h
  · cases u <;> simp [playMove, gameIdTruthy]
  · simp [playMove]

/-- Witness for C10: a concrete state with no current game. -/
theorem playMove_guard_frame_witness :
    playMove noGameState 4 (Except.error "network down") = (noGameState, none) :=
  playMove_guard_frame noGameState 4 (Except.error "network down") (Or.inl rfl)

/-- Claim C2 counterexample: for the length-3 input `[A,A,A]`, `getWinLine`
does not fail with any error condition — it returns the normal outcome
`[0,1,2]`. -/
theorem getWinLine_wrong_length_counterexample :
    ([some Mark.X, some Mark.X, some Mark.X] : List Cell).length ≠ 9
      ∧ getWinLine [some Mark.X, some Mark.X, some Mark.X] = some (0, 1, 2) := by
  constructor
  · decide
  · rfl

/-- The board field is replaced wholesale by every branch of the successful
`playMove` response handler. -/
theorem playMoveApply_board (s : AppState) (r : GameResponse) :
    (playMoveApply s r).board = boardFromState r.state := by
  obtain ⟨i, st, nx, w, wl⟩ := r
  cases w <;> cases wl <;> cases st <;> rfl

/-- The board field is replaced wholesale by every branch of the successful
`fetchGame` response handler. -/
theorem fetchGameApply_board (s : AppState) (r : GameResponse) :
    (fetchGameApply s r).board = boardFromState r.state := by
  obtain ⟨i, st, nx, w, wl⟩ := r
  cases w <;> cases wl <;> cases st <;> rfl

/-- Claim C3 counterexample: the length-9 invariant is not preserved for
every server response.  From a state whose board has length 9, joining a game
whose server snapshot is the length-1 array `[A]` leaves the client board
with length 1. -/
theorem board_invariant_counterexample :
    loggedInMidGameState.board.length = 9
      ∧ (joinGame loggedInMidGameState (Except.ok shortStateResponse)).board.length = 1 := by
  constructor
  · decide
  · rfl

/-- Claim C3 (amended): every operation changes the board only by replacing
the whole sequence — with the server snapshot when the response carries one,
with the fresh empty board when the snapshot is absent, or leaving it
untouched on a failed request — and the length-9 invariant is preserved
provided every server-supplied snapshot has length 9 (the client itself never
checks the length). -/
theorem board_replacement_invariant (s : AppState) (cellIdx : Nat)
    (res : Except String GameResponse) (hb : s.board.length = 9)
    (hres : ∀ r st, res = Except.ok r → r.state = some st → st.length = 9) :
    (startNewGame s res).board.length = 9
      ∧ (joinGame s res).board.length = 9
      ∧ ((playMove s cellIdx res).1).board.length = 9
      ∧ (fetchGame s res).board.length = 9 := by
  cases res with
  | ok r =>
    have hBF : (boardFromState r.state).length = 9 := by
      cases hst : r.state with
      | none => simp [boardFromState, emptyBoard]
      | some st => simpa [boardFromState, hst] using hres r st rfl hst
    have hpm : ((playMove s cellIdx (Except.ok r)).1).board.length = 9 := by
      unfold playMove
      cases hu : s.user with
      | none => exact hb
      | some u =>
        by_cases hg : gameIdTruthy s.gameId
        · simpa [hg, playMoveApply_board] using hBF
        · simpa [hg] using hb
    refine ⟨?_, ?_, hpm, ?_⟩
    · simpa [startNewGame] using hBF
    · simpa [joinGame] using hBF
    · simpa [fetchGame, fetchGameApply_board] using hBF
  | error e =>
    have hpm : ((playMove s cellIdx (Except.error e)).1).board.length = 9 := by
      unfold playMove
      cases hu : s.user with
      | none => exact hb
      | some u =>
        by_cases hg : gameIdTruthy s.gameId
        · simpa [hg] using hb
        · simpa [hg] using hb
    exact ⟨hb, hb, hpm, hb⟩

/-- Witness for C3 (amended) at a concrete state and a concrete well-formed
response. -/
theorem board_replacement_invariant_witness :
    (startNewGame loggedInMidGameState (Except.ok fullResponse)).board.length = 9
      ∧ (joinGame loggedInMidGameState (Except.ok fullResponse)).board.length = 9
      ∧ ((playMove loggedInMidGameState 4 (Except.ok fullResponse)).1).board.length = 9
      ∧ (fetchGame loggedInMidGameState (Except.ok fullResponse)).board.length = 9 :=
  board_replacement_invariant loggedInMidGameState 4 (Except.ok fullResponse)
    (by decide)
    (by
      intro r st hr hst
      injection hr with hr
      subst hr
      simp only [fullResponse] at hst
      injection hst with hst
      subst hst
      decide)

/-- Claim C5: for a concluded-game response, the displayed win line is the
server's `win_line` whenever present, and the locally derived line is used
only when the server omits it; the displayed result is always decided by the
server's `winner` field. -/
theorem server_winLine_precedence (s : AppState) (r : GameResponse) (w : Winner)
    (hw : r.winner = some w) :
    (∀ l, r.win_line = some l →
        (playMoveApply s r).winLine = some l
          ∧ (fetchGameApply s r).winLine = some l)
      ∧ (∀ st, r.win_line = none → r.state = some st →
          (playMoveApply s r).winLine = getWinLine st
            ∧ (fetchGameApply s r).winLine = getWinLine st)
      ∧ (playMoveApply s r).result = some w
      ∧ (fetchGameApply s r).result = r.winner := by
  obtain ⟨i, st, nx, rw, wl⟩ := r
  simp only at hw
  subst hw
  refine ⟨?_, ?_, ?_, ?_⟩
  · intro l hl
    simp only at hl
    subst hl
    cases st <;> exact ⟨rfl, rfl⟩
  · intro st' hwl hst
    simp only at hwl hst
    subst hwl
    subst hst
    exact ⟨rfl, rfl⟩
  · cases wl <;> cases st <;> rfl
  · cases wl <;> cases st <;> rfl

/-- Witness for C5: a concrete concluded response carrying an explicit
server `win_line`, and one omitting it. -/
theorem server_winLine_precedence_witness :
    (playMoveApply noGameState
        { id := 3, state := some scenario1Board, next := none,
          winner := some (Winner.mark Mark.X), win_line := some (0, 1, 2) }).winLine
      = some (0, 1, 2) :=
  ((server_winLine_precedence noGameState
      { id := 3, state := some scenario1Board, next := none,
        winner := some (Winner.mark Mark.X), win_line := some (0, 1, 2) }
      (Winner.mark Mark.X) rfl).1 (0, 1, 2) rfl).1

theorem find?_congr_on {α : Type} (p q : α → Bool) :
    ∀ xs : List α, (∀ x ∈ xs, p x = q x) → xs.find? p = xs.find? q := by
  intro xs
  induction xs with
  | nil => intro _; rfl
  | cons a as ih =>
    intro h
    rw [List.find?_cons, List.find?_cons, h a (List.mem_cons_self a as)]
    cases q a with
    | true => rfl
    | false => exact ih (fun x hx => h x (List.mem_cons_of_mem a hx))

theorem cellAt_padTrunc9 (board : List Cell) (i : Nat) (hi : i < 9) :
    cellAt (padTrunc9 board) i = cellAt board i := by
  unfold cellAt padTrunc9
  by_cases h : i < board.length
  · rw [List.getElem?_append_left (by simp [List.length_take]; omega),
      List.getElem?_take, if_pos hi]
  · have hlen : board.length ≤ i := Nat.le_of_not_lt h
    have htake : (board.take 9).length = board.length := by
      simp [List.length_take]; omega
    rw [List.getElem?_append_right (by rw [htake]; exact hlen), htake,
      List.getElem?_replicate, if_pos (by omega), List.getElem?_eq_none hlen]
    rfl

/-- Claim C2 (amended): `getWinLine` performs no length validation and never
fails: on any input it returns a normal result, behaving exactly as if the
input were truncated to its first 9 cells and padded with empty cells up to
length 9. -/
theorem getWinLine_silent_padTrunc (board : List Cell) :
    getWinLine board = getWinLine (padTrunc9 board)
      ∧ (padTrunc9 board).length = 9 := by
  constructor
  · unfold getWinLine
    apply find?_congr_on
    intro l hl
    obtain ⟨h1, h2, h3⟩ := winLine_mem_lt l hl
    unfold lineMatches
    rw [cellAt_padTrunc9 board l.1 h1, cellAt_padTrunc9 board l.2.1 h2,
      cellAt_padTrunc9 board l.2.2 h3]
  · simp [padTrunc9, List.length_take]
    omega

theorem getWinLine_cell_isSome (board : List Cell) (l : Line)
    (h : getWinLine board = some l) : (cellAt board l.1).isSome = true := by
  have hm := getWinLine_matches board l h
  simp only [lineMatches, Bool.and_eq_true] at hm
  exact hm.1.1

theorem deriveOutcome_eq_win_iff (board : List Cell) (m : Mark) (l : Line) :
    deriveOutcome board = Outcome.win m l ↔
      getWinLine board = some l ∧ cellAt board l.1 = some m := by
  cases hG : getWinLine board with
  | none =>
    simp only [deriveOutcome, hG]
    constructor
    · intro h
      by_cases hall : board.all (fun c => c.isSome) = true <;> simp [hall] at h
    · rintro ⟨h, -⟩
      exact absurd h (by simp)
  | some l0 =>
    simp only [deriveOutcome, hG]
    cases hc : cellAt board l0.1 with
    | none =>
      constructor
      · intro h
        exact absurd h (by simp)
      · rintro ⟨hl, hm⟩
        injection hl with hl
        subst hl
        rw [hc] at hm
        exact absurd hm (by simp)
    | some m0 =>
      constructor
      · intro h
        injection h with hm hl
        subst hm
        subst hl
        exact ⟨rfl, hc⟩
      · rintro ⟨hl, hm⟩
        injection hl with hl
        subst hl
        rw [hc] at hm
        injection hm with hm
        subst hm
        rfl

theorem deriveOutcome_eq_draw_iff (board : List Cell) :
    deriveOutcome board = Outcome.draw ↔
      getWinLine board = none ∧ board.all (fun c => c.isSome) = true := by
  cases hG : getWinLine board with
  | none =>
    simp only [deriveOutcome, hG]
    by_cases hall : board.all (fun c => c.isSome) = true <;> simp [hall]
  | some l =>
    simp only [deriveOutcome, hG]
    cases hc : cellAt board l.1 <;> simp

theorem deriveOutcome_eq_none_iff (board : List Cell) :
    deriveOutcome board = Outcome.none ↔
      getWinLine board = none ∧ ¬ board.all (fun c => c.isSome) = true := by
  cases hG : getWinLine board with
  | none =>
    simp only [deriveOutcome, hG]
    by_cases hall : board.all (fun c => c.isSome) = true <;> simp [hall]
  | some l =>
    have hS := getWinLine_cell_isSome board l hG
    simp only [deriveOutcome, hG]
    cases hc : cellAt board l.1 with
    | none => rw [hc] at hS; simp at hS
    | some m => simp

/-- Claim C1: over length-9 boards, the outcome derivation returns
`win(mark, line)` exactly for the first triple of the fixed enumeration whose
three cells are equal and non-empty, `draw` exactly when no triple matches
and no cell is empty, and `none` otherwise; on the board
`[A,A,A,empty,...,empty]` it returns `win(A, [0,1,2])`. -/
theorem deriveOutcome_spec (board : List Cell) (hb : board.length = 9) :
    (∀ m l, deriveOutcome board = Outcome.win m l ↔
        ∃ pre post, WIN_LINES = pre ++ l :: post ∧ lineFilledWith board l m ∧
          ∀ l' ∈ pre, ¬ ∃ m', lineFilledWith board l' m')
      ∧ (deriveOutcome board = Outcome.draw ↔
          (¬ ∃ l ∈ WIN_LINES, ∃ m, lineFilledWith board l m)
            ∧ ∀ c ∈ board, c ≠ none)
      ∧ (deriveOutcome board = Outcome.none ↔
          (¬ ∃ l ∈ WIN_LINES, ∃ m, lineFilledWith board l m)
            ∧ ∃ c ∈ board, c = none)
      ∧ deriveOutcome scenario1Board = Outcome.win Mark.X (0, 1, 2) := by
  have hnone : getWinLine board = none ↔
      ¬ ∃ l ∈ WIN_LINES, ∃ m, lineFilledWith board l m := by
    rw [getWinLine_eq_none_iff]
    constructor
    · rintro h ⟨l, hl, m, hm⟩
      have ht := (lineMatches_true_iff_filled board hb l hl).mpr ⟨m, hm⟩
      rw [h l hl] at ht
      exact Bool.noConfusion ht
    · intro h l hl
      rw [← Bool.not_eq_true]
      intro ht
      exact h ⟨l, hl, (lineMatches_true_iff_filled board hb l hl).mp ht⟩
  have hall : board.all (fun c => c.isSome) = true ↔ ∀ c ∈ board, c ≠ none := by
    rw [List.all_eq_true]
    constructor
    · intro h c hc
      exact Option.isSome_iff_ne_none.mp (h c hc)
    · intro h c hc
      exact Option.isSome_iff_ne_none.mpr (h c hc)
  refine ⟨?_, ?_, ?_, by decide⟩
  · intro m l
    rw [deriveOutcome_eq_win_iff, getWinLine_eq_some_iff]
    constructor
    · rintro ⟨⟨hmatch, pre, post, hsplit, hpre⟩, hcell⟩
      have hlmem : l ∈ WIN_LINES := by
        rw [hsplit]
        exact List.mem_append_right pre (List.mem_cons_self l post)
      obtain ⟨hi1, hi2, hi3⟩ := winLine_mem_lt l hlmem
      obtain ⟨m', hf'⟩ := (lineMatches_true_iff_filled board hb l hlmem).mp hmatch
      have h2 := (cellAt_eq_some_iff board l.1 (by omega) m).mp hcell
      have h1 := hf'.1
      rw [h1] at h2
      injection h2 with h2
      injection h2 with h2
      rw [h2] at hf'
      refine ⟨pre, post, hsplit, hf', ?_⟩
      intro l' hl'
      have hl'mem : l' ∈ WIN_LINES := by
        rw [hsplit]
        exact List.mem_append_left _ hl'
      rintro ⟨m'', hm''⟩
      have ht := (lineMatches_true_iff_filled board hb l' hl'mem).mpr ⟨m'', hm''⟩
      rw [hpre l' hl'] at ht
      exact Bool.noConfusion ht
    · rintro ⟨pre, post, hsplit, hfill, hpre⟩
      have hlmem : l ∈ WIN_LINES := by
        rw [hsplit]
        exact List.mem_append_right pre (List.mem_cons_self l post)
      obtain ⟨hi1, hi2, hi3⟩ := winLine_mem_lt l hlmem
      refine ⟨⟨(lineMatches_true_iff_filled board hb l hlmem).mpr ⟨m, hfill⟩,
        pre, post, hsplit, ?_⟩,
        (cellAt_eq_some_iff board l.1 (by omega) m).mpr hfill.1⟩
      intro l' hl'
      have hl'mem : l' ∈ WIN_LINES := by
        rw [hsplit]
        exact List.mem_append_left _ hl'
      rw [← Bool.not_eq_true]
      intro ht
      exact hpre l' hl' ((lineMatches_true_iff_filled board hb l' hl'mem).mp ht)
  · rw [deriveOutcome_eq_draw_iff, hnone, hall]
  · rw [deriveOutcome_eq_none_iff, hnone]
    have hne : (¬ board.all (fun c => c.isSome) = true) ↔
        ∃ c ∈ board, c = none := by
      rw [hall]
      constructor
      · intro h
        by_contra h2
        push_neg at h2
        exact h h2
      · rintro ⟨c, hc, hceq⟩ hforall
        exact hforall c hc hceq
    rw [hne]

/-- Witness for C1 at the spec's concrete scenario-1 board. -/
theorem deriveOutcome_spec_witness :
    deriveOutcome scenario1Board = Outcome.win Mark.X (0, 1, 2) :=
  (deriveOutcome_spec scenario1Board (by decide)).2.2.2

/-- Claim C9: on a length-9 board, any triple `getWinLine` returns is one of
the eight fixed triples of `WIN_LINES`, and its three board cells hold one
and the same non-empty mark. -/
theorem getWinLine_sound (board : List Cell) (hb : board.length = 9) (l : Line)
    (h : getWinLine board = some l) :
    l ∈ WIN_LINES ∧ ∃ m, lineFilledWith board l m := by
  have hmem := getWinLine_mem board l h
  exact ⟨hmem,
    (lineMatches_true_iff_filled board hb l hmem).mp (getWinLine_matches board l h)⟩

/-- Witness for C9 at the scenario-1 board, whose win line is `(0,1,2)`. -/
theorem getWinLine_sound_witness :
    (0, 1, 2) ∈ WIN_LINES ∧ ∃ m, lineFilledWith scenario1Board (0, 1, 2) m :=
  getWinLine_sound scenario1Board (by decide) (0, 1, 2) (by decide)

end TicTacToe
